import Mathlib

/-!
Verification development for the conversation-store logic of a browser chat
application.  The definitions below are a shallow embedding of the state and
handlers implemented in the `App` component and the service module:

* data model (`Role`, `Message`, `ChatMode`, `Conversation`, `RequestPart`,
  `Content`) mirrors `types.ts` and the `@google/genai` part shapes used by
  the app;
* `AppState` collects the React state cells of `App`
  (`conversations`, `activeConversationId`, `chatSession`, `isLoading`,
  `context`, `error`, `location`);
* each `handle…` definition embeds the body of the correspondingly named
  handler; React functional state updates are modelled as a single
  state-to-state function, since every handler runs to completion on the
  single UI thread before the next one starts.

External effects are made explicit: fresh `crypto.randomUUID()` values are
parameters, remote-service outcomes are an oracle parameter
(`RemoteOutcome`), and the persisted `localStorage` entry is a value of type
`Option (List Conversation)` (JSON serialization of well-formed data is the
identity on this abstract view).
-/

inductive Role where
  | user
  | model
deriving DecidableEq, Repr

structure GroundingSource where
  uri : String
  title : String
deriving DecidableEq, Repr

/-- Feedback tag; the `null` / absent states of the TS `feedback` field are
both modelled as `none` (the code only ever compares the field with `===`
against a tag, so the two are observationally identical). -/
inductive FeedTag where
  | up
  | down
deriving DecidableEq, Repr

structure Message where
  id : String
  role : Role
  text : String
  sources : Option (List GroundingSource) := none
  isPlaying : Option Bool := none
  images : Option (List String) := none
  feedback : Option FeedTag := none
deriving DecidableEq, Repr

inductive ChatMode where
  | CHAT
  | THINKING
  | MAPS
deriving DecidableEq, Repr

structure Conversation where
  id : String
  title : String
  messages : List Message
  mode : ChatMode
  context : String := ""
deriving DecidableEq, Repr

/-- A part of a request to the inference service: either a text part or an
inline image (`{ inlineData: { data, mimeType } }`). -/
inductive RequestPart where
  | text (text : String)
  | inlineData (data : String) (mimeType : String)
deriving DecidableEq, Repr

structure Content where
  role : Role
  parts : List RequestPart
deriving DecidableEq, Repr

/-- The multi-turn chat session handle, abstracted to the history it was
created from (`ai.chats.create({ model, history })`). -/
structure Session where
  history : List Content
deriving DecidableEq, Repr

structure Location where
  latitude : Int
  longitude : Int
deriving DecidableEq, Repr

/-- The React state cells of `App` that the store handlers read and write. -/
structure AppState where
  conversations : List Conversation
  activeConversationId : Option String
  chatSession : Option Session
  isLoading : Bool
  context : String
  error : Option String
  location : Option Location
deriving DecidableEq, Repr

/-- The module-level synthetic greeting message.  Its id is produced once by
`crypto.randomUUID()` at module load; it is a fixed value for the whole app
run, modelled by a fixed string. -/
def initialBotMessage : Message :=
  { id := "initial-bot-message"
    role := Role.model
    text := "Hello! I\x27m a multi-modal AI assistant. Choose a mode, ask me anything, or upload an image to start." }

/-- `conversations.find(c => c.id === activeConversationId)` (the
`activeConversation` memo). -/
def AppState.activeConversation (s : AppState) : Option Conversation :=
  match s.activeConversationId with
  | none => none
  | some aid => s.conversations.find? (fun c => decide (c.id = aid))

/-- State before the initial-load effect has run. -/
def initialAppState : AppState :=
  { conversations := []
    activeConversationId := none
    chatSession := none
    isLoading := false
    context := ""
    error := none
    location := none }

/-- `handleNewChat`: prepend a fresh greeting-only conversation and make it
active.  `freshId` stands for the `crypto.randomUUID()` result. -/
def handleNewChat (freshId : String) (s : AppState) : AppState :=
  let newConversation : Conversation :=
    { id := freshId
      title := "New Chat"
      messages := [initialBotMessage]
      mode := ChatMode.CHAT
      context := "" }
  { s with conversations := newConversation :: s.conversations
           activeConversationId := some newConversation.id }

/-- `handleSelectConversation`: sets the active pointer unconditionally. -/
def handleSelectConversation (cid : String) (s : AppState) : AppState :=
  { s with activeConversationId := some cid }

/-- `handleRenameConversation`. -/
def handleRenameConversation (cid newTitle : String) (s : AppState) : AppState :=
  { s with conversations := s.conversations.map (fun c =>
      if c.id = cid then { c with title := newTitle } else c) }

/-- `handleDeleteConversation`.  The `newConversations.get? (index - 1)`
fallback branch is unreachable (the index is always in range when the list of
survivors is non-empty); JS would crash there, the model returns the state
unchanged. -/
def handleDeleteConversation (freshId idToDelete : String) (s : AppState) : AppState :=
  match s.conversations.findIdx? (fun c => decide (c.id = idToDelete)) with
  | none => s
  | some index =>
    let newConversations := s.conversations.filter (fun c => !decide (c.id = idToDelete))
    if s.activeConversationId = some idToDelete then
      if 0 < newConversations.length then
        match newConversations[index - 1]? with
        | some next =>
          { s with conversations := newConversations
                   activeConversationId := some next.id }
        | none => s
      else
        handleNewChat freshId s
    else
      { s with conversations := newConversations }

/-- `handleClearAllConversations`. -/
def handleClearAllConversations (freshId : String) (s : AppState) : AppState :=
  let newConversation : Conversation :=
    { id := freshId
      title := "New Chat"
      messages := [initialBotMessage]
      mode := ChatMode.CHAT
      context := "" }
  { s with conversations := [newConversation]
           activeConversationId := some newConversation.id }

/-- `handleSetMode`: overwrite the mode of the active conversation. -/
def handleSetMode (mode : ChatMode) (s : AppState) : AppState :=
  match s.activeConversationId with
  | none => s
  | some aid =>
    { s with conversations := s.conversations.map (fun c =>
        if c.id = aid then { c with mode := mode } else c) }

/-- The feedback toggle `m.feedback === feedback ? null : feedback`. -/
def toggleFeedback (fb : FeedTag) (cur : Option FeedTag) : Option FeedTag :=
  if cur = some fb then none else some fb

/-- `handleFeedback`: toggle the feedback tag of the matching message in the
active conversation. -/
def handleFeedback (messageId : String) (fb : FeedTag) (s : AppState) : AppState :=
  match s.activeConversationId with
  | none => s
  | some aid =>
    { s with conversations := s.conversations.map (fun c =>
        if c.id = aid then
          { c with messages := c.messages.map (fun m =>
              if m.id = messageId then { m with feedback := toggleFeedback fb m.feedback }
              else m) }
        else c) }

/-! ### Persistence (the `chatHistory` localStorage effects) -/

/-- The save effect: `localStorage.setItem('chatHistory', JSON.stringify(conversations))`
when the list is non-empty, `removeItem` otherwise.  The persisted entry is
modelled as the abstract value (JSON round-tripping of well-formed data is the
identity on this view). -/
def saveChatHistory (conversations : List Conversation) : Option (List Conversation) :=
  if conversations.isEmpty then none else some conversations

/-- The startup load effect: parse the stored entry; if it is a non-empty
array, load it verbatim and activate its first element, otherwise fall through
to `handleNewChat`. -/
def loadChatHistory (freshId : String) (store : Option (List Conversation))
    (s : AppState) : AppState :=
  match store with
  | some (c :: rest) =>
    { s with conversations := c :: rest
             activeConversationId := some c.id }
  | some [] => handleNewChat freshId s
  | none => handleNewChat freshId s

/-! ### Image data-URI parsing

The app repeats the same conversion loop verbatim in four places (the session
binder effect, the plain-mode branch of `handleSendMessage`,
`getThinkingResponse` and `getMapsResponse`):

    const [meta, base64Data] = image.split(',');
    const mimeType = meta.match(/:(.*?);/)?.[1];
    if (base64Data && mimeType) parts.push({ inlineData: { data: base64Data, mimeType } });

It is embedded once below and reused at all four sites. -/

/-- Capture of the lazy group of `/:(.*?);/` starting right after the `:`
character: the characters up to the first `;`, or `none` if no `;` follows. -/
def takeUntilSemi : List Char → Option (List Char)
  | [] => none
  | c :: rest => if c = ';' then some [] else (takeUntilSemi rest).map (fun l => c :: l)

/-- `meta.match(/:(.*?);/)?.[1]`: the regex matches at the first `:` that has
a later `;`, and the lazy group captures up to the first `;` after it. -/
def extractMimeAux : List Char → Option (List Char)
  | [] => none
  | c :: rest => if c = ':' then takeUntilSemi rest else extractMimeAux rest

def extractMime (meta : String) : Option String :=
  (extractMimeAux meta.data).map (fun l => String.mk l)

/-- One image string through the conversion: `some (base64Data, mimeType)`
when the entry passes the `base64Data && mimeType` truthiness check (both JS
`undefined` and the empty string are falsy), `none` when it is skipped.
`meta` is the part before the first comma and `base64Data` the part between
the first and second commas (destructuring of `image.split(',')`). -/
def parseImage (image : String) : Option (String × String) :=
  let components := image.splitOn ","
  match components[1]? with
  | none => none
  | some base64Data =>
    if base64Data = "" then none
    else
      match extractMime (components.headD "") with
      | none => none
      | some mimeType =>
        if mimeType = "" then none else some (base64Data, mimeType)

/-- The full `images.forEach` push loop. -/
def imagesToParts (images : List String) : List RequestPart :=
  images.flatMap (fun image =>
    match parseImage image with
    | some (d, m) => [RequestPart.inlineData d m]
    | none => [])

/-! ### Service request shapes (`geminiService`) -/

/-- `` context ? `${context}\n\nQuestion: ${prompt}` : prompt `` shared by
`getThinkingResponse` and `getMapsResponse`. -/
def serviceFullPrompt (prompt context : String) : String :=
  if context ≠ "" then context ++ "\n\nQuestion: " ++ prompt else prompt

/-- The `userParts` array built by `getThinkingResponse`: the text part first,
then the converted images. -/
def thinkingParts (prompt context : String) (images : Option (List String)) : List RequestPart :=
  RequestPart.text (serviceFullPrompt prompt context) :: imagesToParts (images.getD [])

/-- The `userParts` array built by `getMapsResponse` (same shape). -/
def mapsParts (prompt context : String) (images : Option (List String)) : List RequestPart :=
  RequestPart.text (serviceFullPrompt prompt context) :: imagesToParts (images.getD [])

/-- `` context ? `CONTEXT:\n${context}\n\n---\n\nPROMPT:\n${prompt}` : prompt ``
inside `handleSendMessage`. -/
def sendFullContext (context prompt : String) : String :=
  if context ≠ "" then "CONTEXT:\n" ++ context ++ "\n\n---\n\nPROMPT:\n" ++ prompt
  else prompt

/-- The `userParts` array built by the plain-chat branch of
`handleSendMessage`: converted images first, then the effective prompt as a
text part when non-empty. -/
def plainSendParts (fullContext : String) (images : Option (List String)) : List RequestPart :=
  imagesToParts (images.getD []) ++
    (if fullContext ≠ "" then [RequestPart.text fullContext] else [])

def RequestPart.isInline : RequestPart → Bool
  | RequestPart.inlineData _ _ => true
  | RequestPart.text _ => false

/-! ### Session binder -/

/-- `createChatSession(history)`: the session handle keeps the replayed
history. -/
def createChatSession (history : List Content) : Session :=
  { history := history }

/-- Per-message part list used by the session binder effect: converted images
first, then the text as a text part when non-empty. -/
def msgParts (m : Message) : List RequestPart :=
  imagesToParts (m.images.getD []) ++
    (if m.text ≠ "" then [RequestPart.text m.text] else [])

def msgToContent (m : Message) : Content :=
  { role := m.role, parts := msgParts m }

/-- `messages.slice(1).map(...)`: every message after the synthetic greeting,
converted to a role-tagged `Content`. -/
def buildHistory (msgs : List Message) : List Content :=
  (msgs.drop 1).map msgToContent

/-- The `useEffect` on `[activeConversation]`: when an active conversation
exists, mirror its context into the `context` cell and (re)bind the chat
session — a fresh session replaying the history when the mode is plain chat,
`null` otherwise. -/
def bindSession (s : AppState) : AppState :=
  match s.activeConversation with
  | none => s
  | some ac =>
    { s with context := ac.context
             chatSession :=
               if ac.mode = ChatMode.CHAT then
                 some (createChatSession (buildHistory ac.messages))
               else none }

/-! ### The send pipeline -/

/-- `err.message`, with `none` for an absent field; the empty string is falsy
in `err.message || '…'` just like `undefined`. -/
structure ServiceError where
  message : Option String
deriving DecidableEq, Repr

def fallbackErrorText : String := "An unexpected error occurred."

/-- `` `Error: ${err.message || 'An unexpected error occurred.'}` ``. -/
def formatError (e : ServiceError) : String :=
  "Error: " ++
    (match e.message with
     | some m => if m = "" then fallbackErrorText else m
     | none => fallbackErrorText)

/-- Oracle for the outcome of the asynchronous remote call issued by the
active mode branch (text result plus, for the grounded call, the filtered
sources). -/
inductive RemoteOutcome where
  | ok (text : String) (sources : List GroundingSource)
  | fail (e : ServiceError)
deriving DecidableEq, Repr

/-- The `switch (activeConversation.mode)` dispatch inside the `try` block of
`handleSendMessage`, including the two locally thrown errors (no location in
grounded mode, no bound session in plain mode).  Returns the response text and
the sources to attach, or the caught error. -/
def dispatchSend (remote : RemoteOutcome) (mode : ChatMode)
    (location : Option Location) (session : Option Session) :
    Except ServiceError (String × Option (List GroundingSource)) :=
  match mode with
  | ChatMode.THINKING =>
    match remote with
    | RemoteOutcome.ok t _ => Except.ok (t, none)
    | RemoteOutcome.fail e => Except.error e
  | ChatMode.MAPS =>
    match location with
    | none => Except.error { message := some "Location not available. Please allow location access." }
    | some _ =>
      match remote with
      | RemoteOutcome.ok t srcs => Except.ok (t, some srcs)
      | RemoteOutcome.fail e => Except.error e
  | ChatMode.CHAT =>
    match session with
    | none => Except.error { message := some "Chat session not initialized." }
    | some _ =>
      match remote with
      | RemoteOutcome.ok t _ => Except.ok (t, none)
      | RemoteOutcome.fail e => Except.error e

/-- `titlePrompt.substring(0, 40) + "..."` with
`titlePrompt = prompt || "Image Upload"`. -/
def provisionalTitle (prompt : String) : String :=
  (if prompt = "" then "Image Upload" else prompt).take 40 ++ "..."

/-- `handleSendMessage`, run to completion.  `uid` / `mid` stand for the two
`crypto.randomUUID()` calls, `remote` for the outcome of the awaited service
call.  The fire-and-forget background `generateTitle` task is a separate
asynchronous event and is not part of this transition.  Intermediate states
(the optimistic update while the call is in flight) are not observable here;
the function yields the state at the end of the `finally` block. -/
def handleSendMessage (uid mid : String) (remote : RemoteOutcome)
    (prompt : String) (images : Option (List String)) (s : AppState) : AppState :=
  if (prompt = "" ∧ images.getD [] = []) ∨ s.isLoading = true
      ∨ s.activeConversationId = none ∨ s.activeConversation = none then s
  else
    match s.activeConversationId, s.activeConversation with
    | some aid, some activeConv =>
      let userMessage : Message := { id := uid, role := Role.user, text := prompt, images := images }
      let isNew : Bool :=
        match s.conversations.find? (fun c => decide (c.id = aid)) with
        | some c => decide (c.messages.length = 1)
        | none => false
      let afterUser : List Conversation := s.conversations.map (fun c =>
        if c.id = aid then
          { c with messages := c.messages ++ [userMessage]
                   title := cond isNew (provisionalTitle prompt) c.title }
        else c)
      let s2 : AppState := { s with isLoading := true, error := none, conversations := afterUser }
      match dispatchSend remote activeConv.mode s.location s.chatSession with
      | Except.ok (responseText, responseSources) =>
        let modelMessage : Message :=
          { id := mid, role := Role.model, text := responseText, sources := responseSources }
        { s2 with isLoading := false
                  conversations := s2.conversations.map (fun c =>
                    if c.id = aid then { c with messages := c.messages ++ [modelMessage] } else c) }
      | Except.error e =>
        let errorMessage := formatError e
        let errorBotMessage : Message := { id := mid, role := Role.model, text := errorMessage }
        { s2 with isLoading := false
                  error := some errorMessage
                  conversations := s2.conversations.map (fun c =>
                    if c.id = aid then { c with messages := c.messages ++ [errorBotMessage] } else c) }
    | _, _ => s

/-! ### Edit message -/

/-- Result of `handleEditMessage`: the updated state together with the
`handleSendMessage(newText, originalImages)` invocation the handler schedules
via `setTimeout` (or `none` when the handler is a no-op). -/
structure EditResult where
  state : AppState
  scheduledSend : Option (String × Option (List String))
deriving DecidableEq, Repr

/-- `handleEditMessage`.  The `get?` fallback branches are unreachable when
the preceding `findIdx?` succeeded. -/
def handleEditMessage (messageId newText : String) (s : AppState) : EditResult :=
  match s.activeConversationId with
  | none => { state := s, scheduledSend := none }
  | some aid =>
    if s.isLoading then { state := s, scheduledSend := none }
    else
      match s.conversations.findIdx? (fun c => decide (c.id = aid)) with
      | none => { state := s, scheduledSend := none }
      | some conversationIndex =>
        match s.conversations[conversationIndex]? with
        | none => { state := s, scheduledSend := none }
        | some conversation =>
          match conversation.messages.findIdx? (fun m => decide (m.id = messageId)) with
          | none => { state := s, scheduledSend := none }
          | some messageIndex =>
            if messageIndex = 0 then { state := s, scheduledSend := none }
            else
              match conversation.messages[messageIndex]? with
              | none => { state := s, scheduledSend := none }
              | some originalMessage =>
                if originalMessage.role ≠ Role.user then { state := s, scheduledSend := none }
                else
                  { state :=
                      { s with conversations := (s.conversations.set conversationIndex
                          { conversation with
                              messages := conversation.messages.take messageIndex }) }
                    scheduledSend := some (newText, originalMessage.images) }

/-! ### Helper lemmas -/

/-- `find?` over a pointwise update of the matching conversations commutes
with the update, provided the update keeps the id. -/
theorem find?_map_update (l : List Conversation) (aid : String)
    (f : Conversation → Conversation) (hf : ∀ c, (f c).id = c.id) :
    (l.map (fun c => if c.id = aid then f c else c)).find? (fun c => decide (c.id = aid))
      = (l.find? (fun c => decide (c.id = aid))).map f := by
  induction l with
  | nil => rfl
  | cons c l ih =>
    by_cases h : c.id = aid
    · simp [List.find?_cons, h, hf]
    · simp [List.find?_cons, h, ih]

/-- When the first index satisfying the predicate is `i` and no later element
satisfies it either, filtering out the matches is `eraseIdx i`.  The
side condition is id-uniqueness of the conversation list. -/
theorem filter_eq_eraseIdx (l : List Conversation) (idToDelete : String) (i : Nat)
    (hnodup : (l.map (fun c => c.id)).Nodup)
    (hfind : l.findIdx? (fun c => decide (c.id = idToDelete)) = some i) :
    l.filter (fun c => !decide (c.id = idToDelete)) = l.eraseIdx i := by
  induction l generalizing i with
  | nil => simp at hfind
  | cons c l ih =>
    simp only [List.map_cons, List.nodup_cons, List.mem_map] at hnodup
    by_cases h : c.id = idToDelete
    · have hi : i = 0 := by
        rw [List.findIdx?_cons, if_pos (by simp [h])] at hfind
        exact (Option.some.inj hfind).symm
      subst hi
      simp only [List.eraseIdx_cons_zero]
      rw [List.filter_cons_of_neg (by simp [h]), List.filter_eq_self]
      intro a ha
      have hne : a.id ≠ c.id := fun heq => hnodup.1 ⟨a, ha, heq⟩
      simp [h ▸ hne]
    · rw [List.findIdx?_cons, if_neg (by simp [h]), List.findIdx?_succ] at hfind
      obtain ⟨j, hj, rfl⟩ := Option.map_eq_some'.mp hfind
      simp only [List.eraseIdx_cons_succ]
      rw [List.filter_cons_of_pos (by simp [h]), ih j hnodup.2 hj]

/-! ### Claim C6: selectConversation on an absent id -/

def selConvA : Conversation :=
  { id := "a", title := "T", messages := [initialBotMessage], mode := ChatMode.CHAT, context := "" }

def sSelect : AppState :=
  { conversations := [selConvA]
    activeConversationId := some "a"
    chatSession := none
    isLoading := false
    context := ""
    error := none
    location := none }

/-- C6 counterexample: in a store holding only the conversation `"a"`
(active), `selectConversation "zzz"` with `"zzz"` absent is NOT a no-op — the
active pointer moves to the dangling id. -/
theorem select_absent_id_cex :
    (∀ c ∈ sSelect.conversations, c.id ≠ "zzz")
    ∧ (handleSelectConversation "zzz" sSelect).activeConversationId
        ≠ sSelect.activeConversationId := by
  constructor
  · intro c hc
    simp only [sSelect, List.mem_singleton] at hc
    subst hc
    simp [selConvA]
  · simp [handleSelectConversation, sSelect]

/-- C6 (amended): `selectConversation(id)` never changes the conversation
list, and always sets the active pointer to `id` — including when `id`
matches no conversation, in which case the list is unchanged but the active
pointer dangles (there is no defensive absence check). -/
theorem select_sets_pointer_unconditionally (s : AppState) (cid : String) :
    (handleSelectConversation cid s).conversations = s.conversations
    ∧ (handleSelectConversation cid s).activeConversationId = some cid := by
  constructor <;> rfl

/-! ### Claim C1: deleteConversation on the sole remaining conversation -/

def soleConvA : Conversation :=
  { id := "a", title := "T", messages := [initialBotMessage], mode := ChatMode.CHAT, context := "" }

def sSole : AppState :=
  { conversations := [soleConvA]
    activeConversationId := some "a"
    chatSession := none
    isLoading := false
    context := ""
    error := none
    location := none }

/-- C1 (code bug): deleting the sole (active) conversation does NOT leave
exactly one conversation.  The handler takes the `newConversations.length
=== 0` branch and calls `handleNewChat()` without ever committing the
filtered list, so `setConversations(prev => [newConversation, ...prev])`
prepends the fresh conversation to the list that still contains the
"deleted" one: the store ends with TWO conversations, the old one included —
contradicting the code's own comment "If all conversations are deleted,
start a new one".  The fresh greeting-only conversation is active, but the
deleted conversation survives. -/
theorem delete_sole_conversation_bug :
    ((handleDeleteConversation "fresh" "a" sSole).conversations.map (fun c => c.id)
        = ["fresh", "a"])
    ∧ (handleDeleteConversation "fresh" "a" sSole).conversations.length = 2
    ∧ (handleDeleteConversation "fresh" "a" sSole).activeConversationId = some "fresh"
    ∧ soleConvA ∈ (handleDeleteConversation "fresh" "a" sSole).conversations := by
  refine ⟨rfl, rfl, rfl, ?_⟩
  decide

/-! ### Claim C3: persistence round-trip -/

/-- A state reachable through the handlers in which the active conversation
is not the first of the list: boot (empty storage), new chat, then select
the older conversation. -/
def sRoundtrip : AppState :=
  handleSelectConversation "c1" (handleNewChat "c2" (loadChatHistory "c1" none initialAppState))

/-- C3 counterexample: saving `sRoundtrip` (conversations `[c2, c1]`, active
`c1`) and re-running the startup load activates the FIRST stored entry `c2`,
so the active-conversation id is not preserved. -/
theorem persistence_roundtrip_cex :
    sRoundtrip.conversations ≠ []
    ∧ (loadChatHistory "f" (saveChatHistory sRoundtrip.conversations) initialAppState).activeConversationId
        ≠ sRoundtrip.activeConversationId := by
  constructor
  · decide
  · decide

/-- C3 (amended): serializing a non-empty conversation list and re-running
the startup load yields the same conversation list verbatim (hence the same
conversation and message ordering), and activates the FIRST stored
conversation; the active-conversation id is preserved exactly when the
active conversation was first in the list. -/
theorem persistence_roundtrip (s : AppState) (fid : String)
    (c : Conversation) (rest : List Conversation)
    (h : s.conversations = c :: rest) :
    (loadChatHistory fid (saveChatHistory s.conversations) initialAppState).conversations
        = s.conversations
    ∧ (loadChatHistory fid (saveChatHistory s.conversations) initialAppState).activeConversationId
        = some c.id
    ∧ ((loadChatHistory fid (saveChatHistory s.conversations) initialAppState).activeConversationId
          = s.activeConversationId
        ↔ s.activeConversationId = some c.id) := by
  rw [h]
  refine ⟨rfl, rfl, ?_⟩
  constructor
  · intro hh
    exact hh.symm
  · intro hh
    exact hh.symm

/-- Witness for the amended C3 at a concrete two-conversation store. -/
theorem persistence_roundtrip_witness :
    (loadChatHistory "f" (saveChatHistory sRoundtrip.conversations) initialAppState).conversations
      = sRoundtrip.conversations := by
  have h := persistence_roundtrip sRoundtrip "f"
    { id := "c2", title := "New Chat", messages := [initialBotMessage],
      mode := ChatMode.CHAT, context := "" }
    [{ id := "c1", title := "New Chat", messages := [initialBotMessage],
       mode := ChatMode.CHAT, context := "" }]
    (by decide)
  exact h.1

/-! ### Claim C5: feedback toggling -/

def fbMsgUp : Message :=
  { id := "m1", role := Role.model, text := "hi", feedback := some FeedTag.up }

def fbConv : Conversation :=
  { id := "a", title := "T", messages := [initialBotMessage, fbMsgUp],
    mode := ChatMode.CHAT, context := "" }

def sFeedback : AppState :=
  { conversations := [fbConv]
    activeConversationId := some "a"
    chatSession := none
    isLoading := false
    context := ""
    error := none
    location := none }

/-- C5 counterexample: on a message that already carries tag `up`, applying
`setFeedback(id, up)` twice leaves the message with feedback `up` (the first
application clears it, the second sets it again) — not absent as the claim
requires for every message. -/
theorem feedback_double_same_cex :
    ((handleFeedback "m1" FeedTag.up (handleFeedback "m1" FeedTag.up sFeedback)).conversations.head?.bind
        (fun c => c.messages[1]?)).map (fun m => m.feedback) = some (some FeedTag.up)
    ∧ ((handleFeedback "m1" FeedTag.up (handleFeedback "m1" FeedTag.up sFeedback)).conversations.head?.bind
        (fun c => c.messages[1]?)).map (fun m => m.feedback) ≠ some (none : Option FeedTag) := by
  constructor
  · rfl
  · decide

/-- C5 (amended): a single application of `setFeedback(id, t)` leaves the
target message carrying either tag `t` or no feedback (never the other tag —
at most one active tag), and a double application clears the feedback
exactly when the message did not already carry `t` (when it did, the double
application restores `t`).  The store-level double application acts on the
matching message by the double toggle. -/
theorem feedback_toggle_amended (s : AppState) (aid messageId : String) (t : FeedTag)
    (h : s.activeConversationId = some aid) :
    (∀ cur, toggleFeedback t cur = none ∨ toggleFeedback t cur = some t)
    ∧ (∀ cur, cur ≠ some t → toggleFeedback t (toggleFeedback t cur) = none)
    ∧ (∀ cur, cur = some t → toggleFeedback t (toggleFeedback t cur) = some t)
    ∧ handleFeedback messageId t (handleFeedback messageId t s)
        = { s with conversations := s.conversations.map (fun c =>
            if c.id = aid then
              { c with messages := c.messages.map (fun m =>
                  if m.id = messageId then
                    { m with feedback := toggleFeedback t (toggleFeedback t m.feedback) }
                  else m) }
            else c) } := by
  refine ⟨?_, ?_, ?_, ?_⟩
  · intro cur
    by_cases hc : cur = some t
    · left; simp [toggleFeedback, hc]
    · right; simp [toggleFeedback, hc]
  · intro cur hcur
    simp [toggleFeedback, hcur]
  · intro cur hcur
    simp [toggleFeedback, hcur]
  · simp only [handleFeedback, h]
    have hmaps :
        ((s.conversations.map (fun c =>
            if c.id = aid then
              { c with messages := c.messages.map (fun m =>
                  if m.id = messageId then { m with feedback := toggleFeedback t m.feedback }
                  else m) }
            else c)).map (fun c =>
            if c.id = aid then
              { c with messages := c.messages.map (fun m =>
                  if m.id = messageId then { m with feedback := toggleFeedback t m.feedback }
                  else m) }
            else c))
          = s.conversations.map (fun c =>
              if c.id = aid then
                { c with messages := c.messages.map (fun m =>
                    if m.id = messageId then
                      { m with feedback := toggleFeedback t (toggleFeedback t m.feedback) }
                    else m) }
              else c) := by
      rw [List.map_map]
      apply List.map_congr_left
      intro c _
      by_cases hc : c.id = aid
      · simp only [Function.comp_apply, if_pos hc]
        rw [List.map_map]
        congr 1
        apply List.map_congr_left
        intro m _
        by_cases hm : m.id = messageId
        · simp only [Function.comp_apply, if_pos hm]
        · simp only [Function.comp_apply, if_neg hm]
      · simp only [Function.comp_apply, if_neg hc]
    rw [hmaps]

def sFeedbackW : AppState :=
  { conversations :=
      [{ id := "a", title := "T",
         messages := [initialBotMessage,
           { id := "m1", role := Role.model, text := "hi", feedback := some FeedTag.down }],
         mode := ChatMode.CHAT, context := "" }]
    activeConversationId := some "a"
    chatSession := none
    isLoading := false
    context := ""
    error := none
    location := none }

/-- Witness for the amended C5: on a message carrying `down`, the amended
theorem applies and a double `up` application clears the feedback. -/
theorem feedback_toggle_amended_witness :
    toggleFeedback FeedTag.up (toggleFeedback FeedTag.up (some FeedTag.down)) = none
    ∧ handleFeedback "m1" FeedTag.up (handleFeedback "m1" FeedTag.up sFeedbackW)
        = { sFeedbackW with conversations := sFeedbackW.conversations.map (fun c =>
            if c.id = "a" then
              { c with messages := c.messages.map (fun m =>
                  if m.id = "m1" then
                    { m with feedback :=
                        toggleFeedback FeedTag.up (toggleFeedback FeedTag.up m.feedback) }
                  else m) }
            else c) } := by
  have h := feedback_toggle_amended sFeedbackW "a" "m1" FeedTag.up rfl
  exact ⟨h.2.1 (some FeedTag.down) (by decide), h.2.2.2⟩

/-! ### Claim C2: editMessage truncates and re-sends -/

/-- C2: when no send is in flight and the active conversation holds, at
index `i > 0`, a user-authored message whose id is first found at `i`,
`editMessage` replaces the conversation's messages with exactly the first
`i` of them (everything strictly before the edited message) and schedules
`sendMessage(newText, originalImages)` with the edited message's original
images. -/
theorem edit_truncates_and_resends (s : AppState) (aid messageId newText : String)
    (ci i : Nat) (conv : Conversation) (msg : Message)
    (hload : s.isLoading = false)
    (hid : s.activeConversationId = some aid)
    (hci : s.conversations.findIdx? (fun c => decide (c.id = aid)) = some ci)
    (hconv : s.conversations[ci]? = some conv)
    (hmi : conv.messages.findIdx? (fun m => decide (m.id = messageId)) = some i)
    (hmsg : conv.messages[i]? = some msg)
    (hrole : msg.role = Role.user)
    (hpos : 0 < i) :
    handleEditMessage messageId newText s =
      { state := { s with conversations := (s.conversations.set ci
            { conv with messages := conv.messages.take i }) }
        scheduledSend := some (newText, msg.images) } := by
  have hne : ¬(i = 0) := by omega
  have hr : ¬(msg.role ≠ Role.user) := by simp [hrole]
  simp only [handleEditMessage, hid, hload, hci, hconv, hmi, hmsg, if_neg hne, if_neg hr]
  simp

def editUserMsg : Message :=
  { id := "um", role := Role.user, text := "q", images := some ["data:image/png;base64,AA"] }

def editConv : Conversation :=
  { id := "a", title := "T"
    messages := [initialBotMessage, editUserMsg,
      { id := "mm", role := Role.model, text := "ans" }]
    mode := ChatMode.CHAT, context := "" }

def sEdit : AppState :=
  { conversations := [editConv]
    activeConversationId := some "a"
    chatSession := none
    isLoading := false
    context := ""
    error := none
    location := none }

/-- Witness for C2: editing the user message at index 1 of a 3-message
conversation truncates to the greeting alone and schedules a re-send with
the original images. -/
theorem edit_truncates_and_resends_witness :
    handleEditMessage "um" "new question" sEdit =
      { state := { sEdit with conversations := (sEdit.conversations.set 0
            { editConv with messages := editConv.messages.take 1 }) }
        scheduledSend := some ("new question", some ["data:image/png;base64,AA"]) } := by
  exact edit_truncates_and_resends sEdit "a" "um" "new question" 0 1 editConv editUserMsg
    rfl rfl rfl rfl rfl rfl rfl (by decide)

/-! ### Claim C8: sendMessage precondition no-ops -/

/-- C8: `sendMessage` is a no-op — the whole state, in particular the
conversation list, every conversation's message count and the in-flight
flag, is unchanged — whenever the prompt is empty and no images are
supplied, or a send is already in flight, or no active conversation
exists. -/
theorem send_noop_on_guard (uid mid : String) (remote : RemoteOutcome)
    (prompt : String) (images : Option (List String)) (s : AppState)
    (h : (prompt = "" ∧ images.getD [] = []) ∨ s.isLoading = true
        ∨ s.activeConversation = none) :
    handleSendMessage uid mid remote prompt images s = s := by
  rw [handleSendMessage, if_pos]
  rcases h with h | h | h
  · exact Or.inl h
  · exact Or.inr (Or.inl h)
  · exact Or.inr (Or.inr (Or.inr h))

def sNoop : AppState :=
  { conversations :=
      [{ id := "a", title := "T", messages := [initialBotMessage],
         mode := ChatMode.CHAT, context := "" }]
    activeConversationId := some "a"
    chatSession := none
    isLoading := false
    context := ""
    error := none
    location := none }

/-- Witness for C8: an empty prompt with no images leaves the state
untouched. -/
theorem send_noop_on_guard_witness :
    handleSendMessage "u" "m" (RemoteOutcome.ok "hi" []) "" none sNoop = sNoop := by
  exact send_noop_on_guard "u" "m" (RemoteOutcome.ok "hi" []) "" none sNoop
    (Or.inl (by decide))

/-! ### Claim C4: error dual-reporting in sendMessage -/

/-- `find?` after two id-preserving pointwise updates. -/
theorem find?_double_update (l : List Conversation) (aid : String)
    (f g : Conversation → Conversation)
    (hf : ∀ c, (f c).id = c.id) (hg : ∀ c, (g c).id = c.id)
    (c0 : Conversation)
    (h : l.find? (fun c => decide (c.id = aid)) = some c0) :
    ((l.map (fun c => if c.id = aid then f c else c)).map
        (fun c => if c.id = aid then g c else c)).find? (fun c => decide (c.id = aid))
      = some (g (f c0)) := by
  rw [find?_map_update _ _ _ hg, find?_map_update _ _ _ hf, h]
  rfl

/-- C4: when the guard passes and the mode dispatch fails with an error, the
transient UI error value and the text of the model message appended to the
active conversation are both the formatted error string (the error's
message, or the fixed fallback when absent / empty), and the in-flight flag
is false at the end of `sendMessage` regardless of success or failure. -/
theorem send_error_dual_report (uid mid : String) (remote : RemoteOutcome)
    (prompt : String) (images : Option (List String)) (s : AppState)
    (aid : String) (activeConv : Conversation)
    (hne : ¬(prompt = "" ∧ images.getD [] = []))
    (hload : s.isLoading = false)
    (hid : s.activeConversationId = some aid)
    (hac : s.activeConversation = some activeConv) :
    (handleSendMessage uid mid remote prompt images s).isLoading = false
    ∧ (∀ e, dispatchSend remote activeConv.mode s.location s.chatSession = Except.error e →
        (handleSendMessage uid mid remote prompt images s).error = some (formatError e)
        ∧ ((handleSendMessage uid mid remote prompt images s).conversations.find?
              (fun x => decide (x.id = aid))).map (fun c => c.messages.getLast?)
            = some (some { id := mid, role := Role.model, text := formatError e })) := by
  have hguard : ¬((prompt = "" ∧ images.getD [] = []) ∨ s.isLoading = true
      ∨ s.activeConversationId = none ∨ s.activeConversation = none) := by
    intro hcontra
    rcases hcontra with hcase | hcase | hcase | hcase
    · exact hne hcase
    · rw [hload] at hcase; exact Bool.false_ne_true hcase
    · rw [hid] at hcase; exact Option.noConfusion hcase
    · rw [hac] at hcase; exact Option.noConfusion hcase
  have hfind : s.conversations.find? (fun c => decide (c.id = aid)) = some activeConv := by
    simpa [AppState.activeConversation, hid] using hac
  constructor
  · cases hd : dispatchSend remote activeConv.mode s.location s.chatSession with
    | ok val =>
      obtain ⟨t, srcs⟩ := val
      simp only [handleSendMessage]
      rw [if_neg hguard]
      simp only [hid, hac, hd]
    | error e =>
      simp only [handleSendMessage]
      rw [if_neg hguard]
      simp only [hid, hac, hd]
  · intro e he
    simp only [handleSendMessage]
    rw [if_neg hguard]
    simp only [hid, hac, he]
    refine ⟨trivial, ?_⟩
    rw [find?_double_update s.conversations aid
        (fun c =>
          { c with
              title := cond
                (match s.conversations.find? (fun x => decide (x.id = aid)) with
                  | some x => decide (x.messages.length = 1)
                  | none => false)
                (provisionalTitle prompt) c.title
              messages := c.messages ++
                [{ id := uid, role := Role.user, text := prompt, images := images }] })
        (fun c =>
          { c with messages := c.messages ++
              [{ id := mid, role := Role.model, text := formatError e }] })
        (fun c => rfl) (fun c => rfl) activeConv hfind]
    simp [List.getLast?_concat]

def sendErrConv : Conversation :=
  { id := "a", title := "T", messages := [initialBotMessage],
    mode := ChatMode.THINKING, context := "" }

def sSendErr : AppState :=
  { conversations := [sendErrConv]
    activeConversationId := some "a"
    chatSession := none
    isLoading := false
    context := ""
    error := none
    location := none }

/-- Witness for C4: a failing extended-reasoning call surfaces
`"Error: boom"` both as the transient error and in the appended model
message, with the in-flight flag cleared. -/
theorem send_error_dual_report_witness :
    (handleSendMessage "u1" "m1" (RemoteOutcome.fail { message := some "boom" })
        "hi" none sSendErr).isLoading = false
    ∧ (handleSendMessage "u1" "m1" (RemoteOutcome.fail { message := some "boom" })
        "hi" none sSendErr).error = some "Error: boom" := by
  have h := send_error_dual_report "u1" "m1" (RemoteOutcome.fail { message := some "boom" })
    "hi" none sSendErr "a" sendErrConv (by decide) rfl rfl rfl
  have h2 := h.2 { message := some "boom" } rfl
  exact ⟨h.1, h2.1⟩

/-! ### Claim C7: deleteConversation with other conversations remaining -/

/-- `findIdx?` only returns indices below the length. -/
theorem findIdx?_lt_length_of_eq_some {α : Type} {p : α → Bool} {l : List α} {i : Nat}
    (h : l.findIdx? p = some i) : i < l.length :=
  (List.findIdx?_eq_some_iff_findIdx_eq.mp h).1

/-- C7: with id-uniqueness and at least two conversations, deleting the
conversation first found at index `i` removes exactly that conversation;
if it was active, the conversation at index `i - 1` of the old list (the
immediate predecessor, or the new first conversation when `i = 0`) becomes
active; if it was not active, the active pointer is unchanged. -/
theorem delete_activates_predecessor (fid : String) (s : AppState) (idToDelete : String)
    (i : Nat)
    (hnodup : (s.conversations.map (fun c => c.id)).Nodup)
    (hlen : 2 ≤ s.conversations.length)
    (hfind : s.conversations.findIdx? (fun c => decide (c.id = idToDelete)) = some i) :
    ((handleDeleteConversation fid idToDelete s).conversations
        = s.conversations.eraseIdx i)
    ∧ (s.activeConversationId = some idToDelete →
        (handleDeleteConversation fid idToDelete s).activeConversationId
          = if i = 0 then ((s.conversations.eraseIdx i).head?.map (fun c => c.id))
            else (s.conversations[i - 1]?.map (fun c => c.id)))
    ∧ (s.activeConversationId ≠ some idToDelete →
        (handleDeleteConversation fid idToDelete s).activeConversationId
          = s.activeConversationId) := by
  have hilt : i < s.conversations.length := findIdx?_lt_length_of_eq_some hfind
  have hfilter := filter_eq_eraseIdx s.conversations idToDelete i hnodup hfind
  have herlen : (s.conversations.eraseIdx i).length = s.conversations.length - 1 :=
    List.length_eraseIdx_of_lt hilt
  have hpos : 0 < (s.conversations.filter (fun c => !decide (c.id = idToDelete))).length := by
    rw [hfilter, herlen]; omega
  have hgetpred : (s.conversations.filter (fun c => !decide (c.id = idToDelete)))[i - 1]?
      = if i = 0 then (s.conversations.eraseIdx i).head?
        else s.conversations[i - 1]? := by
    rw [hfilter]
    by_cases hzero : i = 0
    · subst hzero
      simp [List.head?_eq_getElem?]
    · rw [if_neg hzero]
      exact List.getElem?_eraseIdx_of_lt _ _ _ (by omega)
  have hsome : ∃ next, (s.conversations.filter (fun c => !decide (c.id = idToDelete)))[i - 1]?
      = some next := by
    cases hx : (s.conversations.filter (fun c => !decide (c.id = idToDelete)))[i - 1]? with
    | some next => exact ⟨next, rfl⟩
    | none =>
      rw [List.getElem?_eq_none_iff, hfilter, herlen] at hx
      omega
  obtain ⟨next, hnext⟩ := hsome
  refine ⟨?_, ?_, ?_⟩
  · by_cases hact : s.activeConversationId = some idToDelete
    · simp only [handleDeleteConversation, hfind, if_pos hact, if_pos hpos, hnext]
      exact hfilter
    · simp only [handleDeleteConversation, hfind, if_neg hact]
      exact hfilter
  · intro hact
    simp only [handleDeleteConversation, hfind, if_pos hact, if_pos hpos, hnext]
    have h3 : (if i = 0 then (s.conversations.eraseIdx i).head?
        else s.conversations[i - 1]?) = some next := hgetpred.symm.trans hnext
    by_cases hzero : i = 0
    · rw [if_pos hzero] at h3 ⊢
      rw [h3]
      rfl
    · rw [if_neg hzero] at h3 ⊢
      rw [h3]
      rfl
  · intro hact
    simp only [handleDeleteConversation, hfind, if_neg hact]

def sDelete : AppState :=
  { conversations :=
      [{ id := "x", title := "X", messages := [initialBotMessage],
         mode := ChatMode.CHAT, context := "" },
       { id := "y", title := "Y", messages := [initialBotMessage],
         mode := ChatMode.CHAT, context := "" }]
    activeConversationId := some "y"
    chatSession := none
    isLoading := false
    context := ""
    error := none
    location := none }

/-- Witness for C7: deleting the active second conversation keeps the first
and activates it (the predecessor). -/
theorem delete_activates_predecessor_witness :
    (handleDeleteConversation "f" "y" sDelete).conversations
        = sDelete.conversations.eraseIdx 1
    ∧ (handleDeleteConversation "f" "y" sDelete).activeConversationId = some "x" := by
  have h := delete_activates_predecessor "f" sDelete "y" 1 (by decide) (by decide) (by decide)
  refine ⟨h.1, ?_⟩
  have h2 := h.2.1 rfl
  rw [h2]
  decide

/-! ### Claim C9: session binder invariant -/

/-- C9: on a state whose active conversation is `c`, after the binder effect
a session is bound iff `c`'s mode is plain chat, and the bound session's
history replays every message after the synthetic greeting, each converted
to its inline image parts followed by its text part, tagged with the
message's role (`buildHistory`).  Switching the mode (`handleSetMode`)
mutates no message of any conversation, and switching away from plain chat
unbinds the session. -/
theorem session_binder_invariant (s : AppState) (aid : String) (c : Conversation)
    (m : ChatMode)
    (hid : s.activeConversationId = some aid)
    (hfind : s.conversations.find? (fun x => decide (x.id = aid)) = some c) :
    ((bindSession s).chatSession.isSome ↔ c.mode = ChatMode.CHAT)
    ∧ (c.mode = ChatMode.CHAT →
        (bindSession s).chatSession = some (createChatSession (buildHistory c.messages)))
    ∧ ((handleSetMode m s).conversations.map (fun x => x.messages)
        = s.conversations.map (fun x => x.messages))
    ∧ (m ≠ ChatMode.CHAT → (bindSession (handleSetMode m s)).chatSession = none) := by
  have hac : s.activeConversation = some c := by
    simp [AppState.activeConversation, hid, hfind]
  have hac2 : (handleSetMode m s).activeConversation = some { c with mode := m } := by
    simp only [AppState.activeConversation, handleSetMode, hid]
    rw [find?_map_update s.conversations aid (fun x => { x with mode := m }) (fun x => rfl),
      hfind]
    rfl
  refine ⟨?_, ?_, ?_, ?_⟩
  · simp only [bindSession, hac]
    by_cases hm : c.mode = ChatMode.CHAT
    · simp [hm]
    · simp [hm]
  · intro hm
    simp only [bindSession, hac, if_pos hm]
  · simp only [handleSetMode, hid, List.map_map]
    apply List.map_congr_left
    intro x _
    by_cases hx : x.id = aid
    · simp [hx]
    · simp [hx]
  · intro hm
    simp only [bindSession, hac2, if_neg hm]

def binderConv : Conversation :=
  { id := "a", title := "T"
    messages := [initialBotMessage,
      { id := "u1", role := Role.user, text := "q",
        images := some ["data:image/png;base64,AA"] },
      { id := "b1", role := Role.model, text := "ans" }]
    mode := ChatMode.CHAT, context := "" }

def sBinder : AppState :=
  { conversations := [binderConv]
    activeConversationId := some "a"
    chatSession := none
    isLoading := false
    context := ""
    error := none
    location := none }

/-- Witness for C9 at a concrete plain-mode conversation with one image
message: the binder builds the replayed history, and switching to grounded
mode unbinds the session without touching messages. -/
theorem session_binder_invariant_witness :
    (bindSession sBinder).chatSession
        = some (createChatSession (buildHistory binderConv.messages))
    ∧ (handleSetMode ChatMode.MAPS sBinder).conversations.map (fun x => x.messages)
        = sBinder.conversations.map (fun x => x.messages)
    ∧ (bindSession (handleSetMode ChatMode.MAPS sBinder)).chatSession = none := by
  have h := session_binder_invariant sBinder "a" binderConv ChatMode.MAPS rfl rfl
  exact ⟨h.2.1 rfl, h.2.2.1, h.2.2.2 (by decide)⟩

/-! ### Claim C10: data-URI image conversion -/

/-- Soundness of a successful parse: the payload is the entry between the
first and second commas and is non-empty, and the MIME type is the non-empty
regex capture from the prefix before the first comma. -/
theorem parseImage_spec (image d m : String)
    (h : parseImage image = some (d, m)) :
    (image.splitOn ",")[1]? = some d ∧ d ≠ ""
    ∧ extractMime ((image.splitOn ",").headD "") = some m ∧ m ≠ "" := by
  simp only [parseImage] at h
  cases h1 : (image.splitOn ",")[1]? with
  | none =>
    simp only [h1] at h
    exact Option.noConfusion h
  | some d' =>
    simp only [h1] at h
    by_cases hd : d' = ""
    · rw [if_pos hd] at h; simp at h
    · rw [if_neg hd] at h
      cases h2 : extractMime ((image.splitOn ",").headD "") with
      | none =>
        simp only [h2] at h
        exact Option.noConfusion h
      | some m' =>
        simp only [h2] at h
        by_cases hm : m' = ""
        · rw [if_pos hm] at h; simp at h
        · rw [if_neg hm] at h
          have hinj := Option.some.inj h
          obtain ⟨rfl, rfl⟩ : d' = d ∧ m' = m :=
            ⟨congrArg Prod.fst hinj, congrArg Prod.snd hinj⟩
          exact ⟨rfl, hd, rfl, hm⟩

/-- Every produced part is an inline part with non-empty payload and MIME
type. -/
theorem imagesToParts_mem (imgs : List String) :
    ∀ p ∈ imagesToParts imgs,
      ∃ d m, p = RequestPart.inlineData d m ∧ d ≠ "" ∧ m ≠ "" := by
  intro p hp
  unfold imagesToParts at hp
  rw [List.mem_flatMap] at hp
  obtain ⟨img, _, hmem⟩ := hp
  cases hpi : parseImage img with
  | none => rw [hpi] at hmem; simp at hmem
  | some dm =>
    obtain ⟨d, m⟩ := dm
    rw [hpi] at hmem
    simp only [List.mem_singleton] at hmem
    subst hmem
    have hspec := parseImage_spec img d m hpi
    exact ⟨d, m, rfl, hspec.2.1, hspec.2.2.2⟩

/-- Each entry contributes at most one part (failing entries are skipped). -/
theorem imagesToParts_length (imgs : List String) :
    (imagesToParts imgs).length ≤ imgs.length := by
  unfold imagesToParts
  induction imgs with
  | nil => simp
  | cons img imgs ih =>
    rw [List.flatMap_cons, List.length_append]
    have hone : (match parseImage img with
        | some (d, m) => [RequestPart.inlineData d m]
        | none => []).length ≤ 1 := by
      cases hpi : parseImage img with
      | none => simp
      | some dm => obtain ⟨d, m⟩ := dm; simp
    simp only [List.length_cons]
    omega

theorem imagesToParts_all_inline (imgs : List String) :
    (imagesToParts imgs).filter RequestPart.isInline = imagesToParts imgs := by
  rw [List.filter_eq_self]
  intro p hp
  obtain ⟨d, m, rfl, _, _⟩ := imagesToParts_mem imgs p hp
  rfl

/-- C10: the image conversion shared by the session binder, the plain-mode
send, `getThinkingResponse` and `getMapsResponse` is total (each entry
contributes at most one part), contributes an inline part only when a
non-empty MIME type is extracted from the prefix before the first comma and
the payload component after it is non-empty, silently skips failing entries,
and never produces an inline part with an empty MIME type or payload; at
each of the four sites the inline parts are exactly this conversion's
output. -/
theorem image_conversion_safety (imgs : List String) :
    (∀ p ∈ imagesToParts imgs,
      ∃ d m, p = RequestPart.inlineData d m ∧ d ≠ "" ∧ m ≠ "")
    ∧ (imagesToParts imgs).length ≤ imgs.length
    ∧ (∀ image d m, parseImage image = some (d, m) →
        (image.splitOn ",")[1]? = some d ∧ d ≠ ""
        ∧ extractMime ((image.splitOn ",").headD "") = some m ∧ m ≠ "")
    ∧ (∀ prompt context,
        (thinkingParts prompt context (some imgs)).filter RequestPart.isInline
          = imagesToParts imgs)
    ∧ (∀ prompt context,
        (mapsParts prompt context (some imgs)).filter RequestPart.isInline
          = imagesToParts imgs)
    ∧ (∀ fc, (plainSendParts fc (some imgs)).filter RequestPart.isInline
          = imagesToParts imgs)
    ∧ (∀ msg : Message, msg.images = some imgs →
        (msgParts msg).filter RequestPart.isInline = imagesToParts imgs) := by
  have hfilterText : ∀ (t : String) (l : List RequestPart),
      (RequestPart.text t :: l).filter RequestPart.isInline
        = l.filter RequestPart.isInline := by
    intro t l
    rw [List.filter_cons_of_neg (by simp [RequestPart.isInline])]
  refine ⟨imagesToParts_mem imgs, imagesToParts_length imgs,
    (fun image d m h => parseImage_spec image d m h), ?_, ?_, ?_, ?_⟩
  · intro prompt context
    rw [thinkingParts, hfilterText, imagesToParts_all_inline]
    rfl
  · intro prompt context
    rw [mapsParts, hfilterText, imagesToParts_all_inline]
    rfl
  · intro fc
    rw [plainSendParts, List.filter_append, imagesToParts_all_inline]
    by_cases hfc : fc ≠ ""
    · rw [if_pos hfc, List.filter_cons_of_neg (by simp [RequestPart.isInline]),
        List.filter_nil, List.append_nil]
      rfl
    · rw [if_neg hfc, List.filter_nil, List.append_nil]
      rfl
  · intro msg hmsg
    rw [msgParts, hmsg, List.filter_append, imagesToParts_all_inline]
    by_cases ht : msg.text ≠ ""
    · rw [if_pos ht, List.filter_cons_of_neg (by simp [RequestPart.isInline]),
        List.filter_nil, List.append_nil]
      rfl
    · rw [if_neg ht, List.filter_nil, List.append_nil]
      rfl

/-- Witness for C10 on a concrete image list: one well-formed data URI
yields one inline part, one malformed entry is skipped. -/
theorem image_conversion_safety_witness :
    (imagesToParts ["data:image/png;base64,AAAA", "bogus"]).length ≤ 2 :=
  (image_conversion_safety ["data:image/png;base64,AAAA", "bogus"]).2.1
